import Mathlib

/-!
# Verification of the `baik` expression language

A shallow embedding of the `baik` expression-evaluation crate.  The crate's
public surface (`eval`, `to_value`, the `Error` enum) and its test suite live
in `src/lib.rs`.  The internal modules (`tree`, `operator`, `node`, `expr`,
`builtin`) are declared there but their sources are not part of the snapshot,
so the scanner, parser and runtime semantics below are modelled from the
specification document; definitions carry a `Modelled from the spec:` note
where that is the case.  Floating-point numbers are modelled as exact
rationals, which agrees with IEEE arithmetic on all decimal values appearing
in the claims.
-/

namespace Baik

/-- Runtime value.  Modelled from the spec: "represent the runtime value as a
closed tagged-variant type {null, boolean, number(integer|float), string,
array, object}" (§9), mirroring `serde_json::Value` with the number variant
split into integer and float as §4.5 requires.  Floats are exact rationals. -/
inductive Value where
  | null : Value
  | bool (b : Bool) : Value
  | int (n : Int) : Value
  | float (q : Rat) : Value
  | str (s : String) : Value
  | arr (xs : List Value) : Value
  | obj (kvs : List (String × Value)) : Value
deriving Repr

mutual

/-- Structural equality of values, mirroring `PartialEq` on
`serde_json::Value`: same shape and equal components.  Modelled from the
spec: "structural equality across same-shaped values; mismatched shapes
compare unequal rather than failing" (§4.5). -/
def Value.beq : Value → Value → Bool
  | .null, .null => true
  | .bool a, .bool b => a == b
  | .int a, .int b => a == b
  | .float a, .float b => a == b
  | .str a, .str b => a == b
  | .arr xs, .arr ys => Value.beqList xs ys
  | .obj xs, .obj ys => Value.beqKvs xs ys
  | _, _ => false

/-- Element-wise structural equality of value lists. -/
def Value.beqList : List Value → List Value → Bool
  | [], [] => true
  | x :: xs, y :: ys => Value.beq x y && Value.beqList xs ys
  | _, _ => false

/-- Entry-wise structural equality of key–value lists. -/
def Value.beqKvs : List (String × Value) → List (String × Value) → Bool
  | [], [] => true
  | (k, x) :: xs, (l, y) :: ys => k == l && Value.beq x y && Value.beqKvs xs ys
  | _, _ => false

end

/-- Expression error, transcribed from the `Error` enum in `src/lib.rs`
(lines 44–133).  Operator payloads are kept as strings. -/
inductive Error where
  | UnsupportedOperator (op : String)
  | CanNotExec (op : String)
  | StartWithNonValueOperator
  | UnpairedBrackets
  | DuplicateValueNode
  | DuplicateOperatorNode
  | CommaNotWithFunction
  | BracketNotWithFunction
  | FunctionNotExists (ident : String)
  | ExpectedBoolean (value : Value)
  | ExpectedIdentifier
  | ExpectedArray
  | ExpectedObject
  | ExpectedNumber
  | NoFinalNode
  | ArgumentsGreater (mx : Nat)
  | ArgumentsLess (mn : Nat)
  | UnsupportedTypes (a b : String)
  | InvalidRange (ident : String)
  | CanNotAddChild
  | Custom (detail : String)
deriving Repr

/-- A single variable scope (`Context` in `src/lib.rs` line 34); the `HashMap`
is modelled as an association list. -/
abbrev Context := List (String × Value)

/-- The scope stack (`Contexts` in `src/lib.rs` line 35), innermost scope
first. -/
abbrev Contexts := List Context

/-- The double-quote character. -/
def dq : Char := Char.ofNat 34

/-- The single-quote character. -/
def sq : Char := Char.ofNat 39

/-- Token kinds.  Modelled from the spec: "a contiguous slice of input
classified as one of {number literal, string literal, identifier, operator
symbol, left bracket, right bracket, comma}" (§3). -/
inductive Token where
  | num (s : String)
  | str (s : String)
  | ident (s : String)
  | op (s : String)
  | lparen | rparen | lbracket | rbracket | comma
deriving DecidableEq, Repr

/-- Scan the body of a quoted literal.  Modelled from the spec: "once inside a
single- or double-quoted literal, all characters including the other quote
character are treated as literal content until the matching quote closes"
(§4.1).  `q` is the opening quote; returns the literal content and the rest of
the input, or `none` on an unterminated quote. -/
def scanQuoted (q : Char) : List Char → List Char → Option (String × List Char)
  | _, [] => none
  | acc, c :: cs => if c = q then some (String.mk acc.reverse, cs) else scanQuoted q (c :: acc) cs

/-- Take the maximal run of digits and dots that forms a numeric (or range)
token.  Modelled from the spec: "Numeric literals may include a single decimal
point; a token containing exactly one `.` transitions to range-operator
detection only when followed by a second `.`" (§4.1). -/
def takeNumTok : List Char → (List Char × List Char)
  | [] => ([], [])
  | c :: cs =>
    if c.isDigit ∨ c = '.' then
      let (a, r) := takeNumTok cs
      (c :: a, r)
    else ([], c :: cs)

/-- Take the maximal run of identifier characters (letters, digits,
underscore). -/
def takeIdentTok : List Char → (List Char × List Char)
  | [] => ([], [])
  | c :: cs =>
    if c.isAlpha ∨ c.isDigit ∨ c = '_' then
      let (a, r) := takeIdentTok cs
      (c :: a, r)
    else ([], c :: cs)

/-- Lexical scanner.  Modelled from the spec: "converts raw input text into an
ordered sequence of token spans (value literals, identifiers, operators,
brackets, commas), honoring quoted-string boundaries so operator-like
characters inside quotes are inert" (§2); "Whitespace outside literals is
insignificant and discarded" (§4.1).  Driven by fuel; each step consumes at
least one character, so `length + 1` fuel always suffices. -/
def scanAux : Nat → List Char → Except Error (List Token)
  | 0, _ => .error (.Custom "scanner fuel exhausted")
  | _ + 1, [] => .ok []
  | f + 1, c :: cs =>
    if c = ' ' ∨ c = '\t' ∨ c = '\n' ∨ c = '\r' then scanAux f cs
    else if c = dq ∨ c = sq then
      match scanQuoted c [] cs with
      | some (s, rest) => do
        let ts ← scanAux f rest
        pure (Token.str s :: ts)
      | none => .error (.Custom "unterminated string literal")
    else if c.isDigit then
      let (a, r) := takeNumTok (c :: cs)
      do
        let ts ← scanAux f r
        pure (Token.num (String.mk a) :: ts)
    else if c.isAlpha ∨ c = '_' then
      let (a, r) := takeIdentTok (c :: cs)
      do
        let ts ← scanAux f r
        pure (Token.ident (String.mk a) :: ts)
    else if c = '(' then do
      let ts ← scanAux f cs
      pure (Token.lparen :: ts)
    else if c = ')' then do
      let ts ← scanAux f cs
      pure (Token.rparen :: ts)
    else if c = '[' then do
      let ts ← scanAux f cs
      pure (Token.lbracket :: ts)
    else if c = ']' then do
      let ts ← scanAux f cs
      pure (Token.rbracket :: ts)
    else if c = ',' then do
      let ts ← scanAux f cs
      pure (Token.comma :: ts)
    else
      match cs with
      | c2 :: cs2 =>
        let two := String.mk [c, c2]
        if two = "==" ∨ two = "!=" ∨ two = ">=" ∨ two = "<=" ∨ two = "&&" ∨ two = "||" then do
          let ts ← scanAux f cs2
          pure (Token.op two :: ts)
        else
          if c = '+' ∨ c = '-' ∨ c = '*' ∨ c = '/' ∨ c = '%' ∨ c = '>' ∨ c = '<' ∨ c = '!' ∨ c = '.' then do
            let ts ← scanAux f cs
            pure (Token.op (String.mk [c]) :: ts)
          else .error (.UnsupportedOperator (String.mk [c]))
      | [] =>
        if c = '+' ∨ c = '-' ∨ c = '*' ∨ c = '/' ∨ c = '%' ∨ c = '>' ∨ c = '<' ∨ c = '!' ∨ c = '.' then
          .ok [Token.op (String.mk [c])]
        else .error (.UnsupportedOperator (String.mk [c]))

/-- Scan a raw input string into tokens. -/
def scan (s : String) : Except Error (List Token) :=
  scanAux (s.length + 1) s.toList

/-- Bracket/operator resolver.  Modelled from the spec: "pair every left
bracket with its nearest unmatched right bracket; fails with UnpairedBrackets
if counts or nesting do not resolve" (§4.2).  The stack records `true` for an
open parenthesis and `false` for an open square bracket. -/
def checkBrackets : List Token → List Bool → Except Error Unit
  | [], [] => .ok ()
  | [], _ :: _ => .error .UnpairedBrackets
  | Token.lparen :: ts, st => checkBrackets ts (true :: st)
  | Token.lbracket :: ts, st => checkBrackets ts (false :: st)
  | Token.rparen :: ts, true :: st => checkBrackets ts st
  | Token.rparen :: _, _ => .error .UnpairedBrackets
  | Token.rbracket :: ts, false :: st => checkBrackets ts st
  | Token.rbracket :: _, _ => .error .UnpairedBrackets
  | _ :: ts, st => checkBrackets ts st

/-- AST node.  Modelled from the spec: "either a value node (literal,
identifier reference, or sub-expression result) or an operator node" (§3);
dot-access `e.k` is "sugar for the same operation with a literal key" (§4.3),
so both access forms share the `access` constructor, and a numeric token
containing `..` becomes a range node whose bounds are resolved at execution
(§4.4). -/
inductive Node where
  | lit (v : Value)
  | rng (s : String)
  | var (name : String)
  | call (f : String) (args : List Node)
  | access (base key : Node)
  | unop (op : String) (e : Node)
  | binop (op : String) (l r : Node)
deriving Repr

/-- Accumulate a run of decimal digits into a natural number. -/
def digitsToNat : Nat → List Char → Nat
  | acc, [] => acc
  | acc, c :: cs => digitsToNat (acc * 10 + (c.toNat - 48)) cs

/-- Parse a non-empty all-digit character run as an integer; anything else is
`none` (the range evaluator turns that into `ExpectedNumber`). -/
def parseIntOpt (cs : List Char) : Option Int :=
  if cs ≠ [] ∧ cs.all (fun c => c.isDigit) then some (digitsToNat 0 cs) else none

/-- Exact rational addition, written through `Rat.divInt` so that proofs can
evaluate it (the library's own `Rat.add` is sealed). -/
def ratAdd (a b : Rat) : Rat :=
  Rat.divInt (a.num * b.den + b.num * a.den) (a.den * b.den)

/-- Exact rational subtraction (see `ratAdd`). -/
def ratSub (a b : Rat) : Rat :=
  Rat.divInt (a.num * b.den - b.num * a.den) (a.den * b.den)

/-- Exact rational multiplication (see `ratAdd`). -/
def ratMul (a b : Rat) : Rat :=
  Rat.divInt (a.num * b.num) (a.den * b.den)

/-- Exact rational division (see `ratAdd`); division by zero yields zero and
is never exercised by the verified statements. -/
def ratDiv (a b : Rat) : Rat :=
  Rat.divInt (a.num * b.den) (a.den * b.num)

/-- Strict rational comparison via the executable `Rat.blt`. -/
def ratLt (a b : Rat) : Bool :=
  Rat.blt a b

/-- Non-strict rational comparison. -/
def ratLe (a b : Rat) : Bool :=
  !Rat.blt b a

/-- Parse a numeric token containing a single decimal point as an exact
rational (`intpart.fracpart`). -/
def parseFloatRat (cs : List Char) : Rat :=
  let ip := cs.takeWhile (fun c => c.isDigit)
  let rest := cs.dropWhile (fun c => c.isDigit)
  match rest with
  | '.' :: r =>
    let fp := r.takeWhile (fun c => c.isDigit)
    mkRat (digitsToNat 0 ip * 10 ^ fp.length + digitsToNat 0 fp) (10 ^ fp.length)
  | _ => mkRat (digitsToNat 0 ip) 1

/-- Does the token text contain two adjacent dots (a range)? -/
def hasRangeDots : List Char → Bool
  | '.' :: '.' :: _ => true
  | _ :: cs => hasRangeDots cs
  | [] => false

/-- Classify a numeric token: a single embedded dot makes it a float literal,
otherwise it is an integer literal (§4.1). -/
def numLit (s : String) : Value :=
  if s.toList.contains '.' then .float (parseFloatRat s.toList)
  else .int (digitsToNat 0 s.toList)

/-- Infix binary operator precedence.  Modelled from the spec's operator
table (§3, §4.3): `||` < `&&` < equality < ordering < additive <
multiplicative; all left-associative. -/
def binPrec (s : String) : Option Nat :=
  if s = "||" then some 1
  else if s = "&&" then some 2
  else if s = "==" ∨ s = "!=" then some 3
  else if s = ">" ∨ s = "<" ∨ s = ">=" ∨ s = "<=" then some 4
  else if s = "+" ∨ s = "-" then some 5
  else if s = "*" ∨ s = "/" ∨ s = "%" then some 6
  else none

mutual

/-- AST builder, one precedence-climbing step.  Modelled from the spec (§4.3).
`isStart` is true only for the first operand position of the whole expression,
so that a leading non-prefix operator is `StartWithNonValueOperator` while a
repeated operator later is `DuplicateOperatorNode`.  Fuel-driven; every
recursive call strictly decreases the fuel. -/
def parseExpr : Nat → Bool → Nat → List Token → Except Error (Node × List Token)
  | 0, _, _, _ => .error .NoFinalNode
  | f + 1, isStart, minPrec, ts => do
    let (a, r) ← parseAtom f isStart ts
    let (b, r2) ← parseTrail f a r
    parseLoop f minPrec b r2

/-- Reduce infix operators of precedence at least `minPrec` against the
accumulated left-hand side; two adjacent value-bearing tokens are
`DuplicateValueNode` (§4.3). -/
def parseLoop : Nat → Nat → Node → List Token → Except Error (Node × List Token)
  | 0, _, _, _ => .error .NoFinalNode
  | f + 1, minPrec, lhs, ts =>
    match ts with
    | Token.op s :: rest =>
      match binPrec s with
      | some p =>
        if minPrec ≤ p then do
          let (rhs, r) ← parseExpr f false (p + 1) rest
          parseLoop f minPrec (Node.binop s lhs rhs) r
        else .ok (lhs, ts)
      | none => .error .DuplicateOperatorNode
    | Token.num _ :: _ => .error .DuplicateValueNode
    | Token.str _ :: _ => .error .DuplicateValueNode
    | Token.ident _ :: _ => .error .DuplicateValueNode
    | Token.lparen :: _ => .error .DuplicateValueNode
    | _ => .ok (lhs, ts)

/-- Parse one operand: literal, range token, identifier or call site
(`identifier(` per §4.3), parenthesised group, or prefix `!`.  An empty
bracket pair in operand position is `BracketNotWithFunction`, a comma is
`CommaNotWithFunction`, and a non-prefix operator is rejected as described at
`parseExpr` (§4.3). -/
def parseAtom : Nat → Bool → List Token → Except Error (Node × List Token)
  | 0, _, _ => .error .NoFinalNode
  | f + 1, isStart, ts =>
    match ts with
    | [] => .error .NoFinalNode
    | Token.num s :: rest =>
      if hasRangeDots s.toList then .ok (Node.rng s, rest)
      else .ok (Node.lit (numLit s), rest)
    | Token.str s :: rest => .ok (Node.lit (.str s), rest)
    | Token.ident fname :: Token.lparen :: Token.rparen :: rest =>
      .ok (Node.call fname [], rest)
    | Token.ident fname :: Token.lparen :: rest => do
      let (args, r) ← parseArgs f rest
      .ok (Node.call fname args, r)
    | Token.ident x :: rest =>
      if x = "true" then .ok (Node.lit (.bool true), rest)
      else if x = "false" then .ok (Node.lit (.bool false), rest)
      else .ok (Node.var x, rest)
    | Token.lparen :: Token.rparen :: _ => .error .BracketNotWithFunction
    | Token.lparen :: rest => do
      let (e, r) ← parseExpr f false 0 rest
      match r with
      | Token.rparen :: r2 => .ok (e, r2)
      | Token.comma :: _ => .error .CommaNotWithFunction
      | _ => .error .UnpairedBrackets
    | Token.op s :: rest =>
      if s = "!" then do
        let (e, r) ← parseExpr f false 7 rest
        .ok (Node.unop "!" e, r)
      else if isStart then .error .StartWithNonValueOperator
      else .error .DuplicateOperatorNode
    | Token.comma :: _ => .error .CommaNotWithFunction
    | _ => .error .NoFinalNode

/-- Parse the postfix access chain after an operand: `.identifier` dot-access
and `[expr]` index-access (§4.3). -/
def parseTrail : Nat → Node → List Token → Except Error (Node × List Token)
  | 0, _, _ => .error .NoFinalNode
  | f + 1, base, ts =>
    match ts with
    | Token.op s :: Token.ident k :: rest =>
      if s = "." then parseTrail f (Node.access base (Node.lit (.str k))) rest
      else .ok (base, ts)
    | Token.op s :: _ =>
      if s = "." then .error .ExpectedIdentifier else .ok (base, ts)
    | Token.lbracket :: rest => do
      let (e, r) ← parseExpr f false 0 rest
      match r with
      | Token.rbracket :: r2 => parseTrail f (Node.access base e) r2
      | _ => .error .UnpairedBrackets
    | _ => .ok (base, ts)

/-- Parse the comma-separated argument list of a call site up to the matching
`)` (§4.3). -/
def parseArgs : Nat → List Token → Except Error (List Node × List Token)
  | 0, _ => .error .NoFinalNode
  | f + 1, ts => do
    let (e, r) ← parseExpr f false 0 ts
    match r with
    | Token.comma :: r2 => do
      let (es, r3) ← parseArgs f r2
      .ok (e :: es, r3)
    | Token.rparen :: r2 => .ok ([e], r2)
    | _ => .error .UnpairedBrackets

end

/-- AST builder entry: parse the whole token sequence into a single root node;
leftover tokens mean the reduction did not leave exactly one root (§4.3), and
a leftover comma is a comma outside any call site. -/
def parseTokens (ts : List Token) : Except Error Node := do
  let (n, rest) ← parseExpr (10 * ts.length + 10) true 0 ts
  match rest with
  | [] => .ok n
  | Token.comma :: _ => .error .CommaNotWithFunction
  | _ => .error .NoFinalNode

/-- Human-readable type name of a value, used in `UnsupportedTypes` payloads. -/
def typeName : Value → String
  | .null => "null"
  | .bool _ => "boolean"
  | .int _ => "number"
  | .float _ => "number"
  | .str _ => "string"
  | .arr _ => "array"
  | .obj _ => "object"

/-- Numeric view of a value: integers and floats only. -/
def toRatOpt : Value → Option Rat
  | .int n => some (mkRat n 1)
  | .float q => some q
  | _ => none

/-- Is the value a float? (drives int-vs-float result promotion, §4.5). -/
def isFloat : Value → Bool
  | .float _ => true
  | _ => false

/-- Is the value null? -/
def isNull : Value → Bool
  | .null => true
  | _ => false

/-- Truncation toward zero of a rational, as Rust's float-to-int cast and
`%` on floats use; `Int.tdiv` truncates toward zero and the denominator is
positive. -/
def ratTrunc (q : Rat) : Int :=
  q.num.tdiv (q.den : Int)

/-- Remainder of two rationals under truncated division, matching `%` on
IEEE doubles for exactly representable operands. -/
def ratFmod (a b : Rat) : Rat :=
  ratSub a (ratMul b (mkRat (ratTrunc (ratDiv a b)) 1))

/-- Addition.  Modelled from the spec: "numeric + numeric → numeric sum
(integer+integer stays integer; any float operand promotes to float);
string + string → concatenation; any other pairing fails with
UnsupportedTypes" (§4.5). -/
def addValues : Value → Value → Except Error Value
  | .int a, .int b => .ok (.int (a + b))
  | .int a, .float b => .ok (.float (ratAdd (mkRat a 1) b))
  | .float a, .int b => .ok (.float (ratAdd a (mkRat b 1)))
  | .float a, .float b => .ok (.float (ratAdd a b))
  | .str a, .str b => .ok (.str (a ++ b))
  | a, b => .error (.UnsupportedTypes (typeName a) (typeName b))

/-- Subtraction and multiplication share the numeric promotion rule:
integer·integer stays integer, otherwise float; non-numeric operands fail
with `ExpectedNumber` (§4.5). -/
def mulSubValues (fi : Int → Int → Int) (fq : Rat → Rat → Rat) :
    Value → Value → Except Error Value
  | .int a, .int b => .ok (.int (fi a b))
  | a, b =>
    match toRatOpt a, toRatOpt b with
    | some x, some y => .ok (.float (fq x y))
    | _, _ => .error .ExpectedNumber

/-- Division.  Modelled from the spec: "division always yields a floating
value" (§4.5); both operands must be numeric (`ExpectedNumber`). -/
def divValues (a b : Value) : Except Error Value :=
  match toRatOpt a, toRatOpt b with
  | some x, some y => .ok (.float (ratDiv x y))
  | _, _ => .error .ExpectedNumber

/-- Remainder.  Modelled from the spec: "remainder preserves operand type
rule: integer % integer → integer, any float operand → float remainder"
(§4.5); integers use Rust's truncated `%`. -/
def remValues : Value → Value → Except Error Value
  | .int a, .int b => .ok (.int (a.tmod b))
  | a, b =>
    match toRatOpt a, toRatOpt b with
    | some x, some y => .ok (.float (ratFmod x y))
    | _, _ => .error .ExpectedNumber

/-- Ordering comparison.  Modelled from the spec: "numeric operands only;
non-numeric comparison fails with ExpectedNumber" (§4.5) together with the
null rule pinned by `test_null_and_number` in `src/lib.rs` and §4.5's
"null is always-false for ordering": a null operand makes every ordering
comparison false. -/
def cmpValues (f : Rat → Rat → Bool) (a b : Value) : Except Error Value :=
  if isNull a || isNull b then .ok (.bool false)
  else
    match toRatOpt a, toRatOpt b with
    | some x, some y => .ok (.bool (f x y))
    | _, _ => .error .ExpectedNumber

/-- Boolean coercion.  Modelled from the spec: "only boolean values coerce
directly; a non-boolean operand fails with ExpectedBoolean" (§4.5). -/
def asBool : Value → Except Error Bool
  | .bool b => .ok b
  | v => .error (.ExpectedBoolean v)

/-- First value bound to `k` in an association list (object property). -/
def lookupKey (k : String) : List (String × Value) → Option Value
  | [] => none
  | (l, v) :: kvs => if l = k then some v else lookupKey k kvs

/-- Name resolution over the scope stack.  Modelled from the spec: "name
resolution searches from innermost to outermost, first match wins; unresolved
names yield null rather than failing" (§3). -/
def lookupVar : Contexts → String → Value
  | [], _ => .null
  | ctx :: ctxs, name =>
    match lookupKey name ctx with
    | some v => v
    | none => lookupVar ctxs name

/-- Property/index lookup.  Modelled from the spec: "object property lookup,
array positional lookup (failing with ExpectedArray/ExpectedObject when the
base is neither), or null when base is null or key/index is out of range"
(§4.4), with missing properties and out-of-range indexes yielding null (§8). -/
def accessValue : Value → Value → Except Error Value
  | .null, _ => .ok .null
  | .obj kvs, .str k =>
    .ok (match lookupKey k kvs with
         | some v => v
         | none => .null)
  | .obj _, _ => .ok .null
  | .arr xs, .int i =>
    .ok (if i < 0 then .null else xs.getD i.toNat .null)
  | .arr _, _ => .ok .null
  | _, .int _ => .error .ExpectedArray
  | _, _ => .error .ExpectedObject

/-- Half-open integer range `[a, b)` (§4.4). -/
def rangeList (a b : Int) : List Int :=
  (List.range (b - a).toNat).map (fun k => a + Int.ofNat k)

/-- Evaluate the dot-separated parts of a range token: exactly two numeric
bounds produce the half-open sequence, a non-numeric bound is
`ExpectedNumber`, and any other number of parts (a chained range such as
`1..2..3`) is `InvalidRange` carrying the token text (§4.4). -/
def evalRangeParts (s : String) : List (List Char) → Except Error Value
  | [p, q] =>
    match parseIntOpt p, parseIntOpt q with
    | some a, some b => .ok (.arr ((rangeList a b).map Value.int))
    | _, _ => .error .ExpectedNumber
  | _ => .error (.InvalidRange s)

/-- Split a range token on each `..` occurrence. -/
def splitRange : List Char → List Char → List (List Char)
  | acc, '.' :: '.' :: rest => acc.reverse :: splitRange [] rest
  | acc, c :: rest => splitRange (c :: acc) rest
  | acc, [] => [acc.reverse]

/-- Resolve a range token such as `0..5` to its value (§4.4). -/
def evalRange (s : String) : Except Error Value :=
  evalRangeParts s (splitRange [] s.toList)

/-- Flatten builtin arguments: a single array argument stands for its
elements (so `min(0..5)` takes the minimum of the expanded sequence). -/
def unwrapArgs : List Value → List Value
  | [.arr xs] => xs
  | vs => vs

/-- Fold for `min`/`max`: keep the argument whose numeric view wins under
`f`; non-numeric arguments are `ExpectedNumber`. -/
def pickFold (f : Rat → Rat → Bool) : Value → List Value → Except Error Value
  | best, [] => .ok best
  | best, v :: vs =>
    match toRatOpt best, toRatOpt v with
    | some x, some y => pickFold f (if f y x then v else best) vs
    | _, _ => .error .ExpectedNumber

/-- Length of a string, array, or object. -/
def lengthValue : Value → Except Error Value
  | .str s => .ok (.int s.length)
  | .arr xs => .ok (.int xs.length)
  | .obj kvs => .ok (.int kvs.length)
  | v => .error (.ExpectedBoolean v)

/-- The built-in function registry.  Modelled from the spec: "built-ins
satisfying this contract include: minimum-of-arguments, maximum-of-arguments,
length-of (string, array, or object), array constructor from positional
arguments, and emptiness test" (§6), with the Indonesian names `panjang`,
`untaian`, `kosong` used by the tests in `src/lib.rs`; an unknown name is
`FunctionNotExists` (§4.4). -/
def callBuiltin : String → List Value → Except Error Value
  | "min", vs =>
    match unwrapArgs vs with
    | [] => .error (.ArgumentsLess 1)
    | v :: rest => pickFold (fun y x => ratLt y x) v rest
  | "max", vs =>
    match unwrapArgs vs with
    | [] => .error (.ArgumentsLess 1)
    | v :: rest => pickFold (fun y x => ratLt x y) v rest
  | "untaian", vs => .ok (.arr vs)
  | "panjang", [v] => lengthValue v
  | "kosong", [.str s] => .ok (.bool (s = ""))
  | "kosong", [.arr xs] => .ok (.bool xs.isEmpty)
  | "kosong", [.obj kvs] => .ok (.bool kvs.isEmpty)
  | "kosong", [.null] => .ok (.bool true)
  | "kosong", [v] => .error (.ExpectedBoolean v)
  | f, _ => .error (.FunctionNotExists f)

/-- Dispatch a binary operator that is not a short-circuiting logical
operator (§4.5). -/
def applyBin (op : String) (a b : Value) : Except Error Value :=
  if op = "+" then addValues a b
  else if op = "-" then mulSubValues (fun x y => x - y) ratSub a b
  else if op = "*" then mulSubValues (fun x y => x * y) ratMul a b
  else if op = "/" then divValues a b
  else if op = "%" then remValues a b
  else if op = "==" then .ok (.bool (Value.beq a b))
  else if op = "!=" then .ok (.bool (!(Value.beq a b)))
  else if op = ">" then cmpValues (fun x y => ratLt y x) a b
  else if op = "<" then cmpValues ratLt a b
  else if op = ">=" then cmpValues (fun x y => ratLe y x) a b
  else if op = "<=" then cmpValues ratLe a b
  else .error (.CanNotExec op)

mutual

/-- The compiled evaluator's behavior on one node.  Modelled from the spec's
compiler contract (§4.4): literals are constants, identifiers are scope-stack
lookups that yield null when missing, `&&`/`||` evaluate the left operand
first and do not touch the right one when the left already decides the
result, other operator nodes evaluate children left to right and apply the
runtime value semantics, access nodes evaluate base then key and perform the
lookup, call nodes evaluate arguments left to right then invoke the
registry's function, and range nodes resolve their bounds. -/
def evalNode (ctxs : Contexts) : Node → Except Error Value
  | .lit v => .ok v
  | .rng s => evalRange s
  | .var name => .ok (lookupVar ctxs name)
  | .call f args => do
    let vs ← evalArgs ctxs args
    callBuiltin f vs
  | .access b k => do
    let bv ← evalNode ctxs b
    let kv ← evalNode ctxs k
    accessValue bv kv
  | .unop _ e => do
    let v ← evalNode ctxs e
    let b ← asBool v
    pure (Value.bool (!b))
  | .binop op l r =>
    if op = "&&" then do
      let lv ← evalNode ctxs l
      let lb ← asBool lv
      if lb then do
        let rv ← evalNode ctxs r
        let rb ← asBool rv
        pure (Value.bool rb)
      else pure (Value.bool false)
    else if op = "||" then do
      let lv ← evalNode ctxs l
      let lb ← asBool lv
      if lb then pure (Value.bool true)
      else do
        let rv ← evalNode ctxs r
        let rb ← asBool rv
        pure (Value.bool rb)
    else do
      let lv ← evalNode ctxs l
      let rv ← evalNode ctxs r
      applyBin op lv rv

/-- Evaluate call arguments left to right (§4.4). -/
def evalArgs (ctxs : Contexts) : List Node → Except Error (List Value)
  | [] => .ok []
  | a :: rest => do
    let v ← evalNode ctxs a
    let vs ← evalArgs ctxs rest
    pure (v :: vs)

end

/-- Compile-and-execute against a scope stack: scan, resolve brackets, build
the AST, then run the evaluator (§2's pipeline). -/
def evalWith (ctxs : Contexts) (s : String) : Except Error Value := do
  let ts ← scan s
  let () ← checkBrackets ts []
  let n ← parseTokens ts
  evalNode ctxs n

/-- The `eval` convenience entry point of `src/lib.rs` (line 38):
`Expr::new(expr).compile()?.exec()` with no variables and no user
functions. -/
def eval (s : String) : Except Error Value :=
  evalWith [] s

/-- The public helper `to_value` of `src/lib.rs` (lines 30–32):
`json_to_value(v).unwrap()`.  The serde conversion outcome is the `Except`
argument; `unwrap` returns the converted value on success and panics on
failure, the panic being modelled as `none`.  Note the Rust signature returns
a bare `Value`, so no typed `Error` can be produced. -/
def to_value (r : Except String Value) : Option Value :=
  match r with
  | .ok v => some v
  | .error _ => none

/-- Constructor tag of a value, used to state which values share a shape
(integers and floats are distinct shapes, as in `serde_json::Number`'s
variant-sensitive equality). -/
def shapeTag : Value → Nat
  | .null => 0
  | .bool _ => 1
  | .int _ => 2
  | .float _ => 3
  | .str _ => 4
  | .arr _ => 5
  | .obj _ => 6

/-! ## Helper lemmas -/

/-- A name bound in no scope of the stack resolves to null. -/
theorem lookupVar_eq_null {ctxs : Contexts} {x : String}
    (h : ∀ ctx ∈ ctxs, lookupKey x ctx = none) : lookupVar ctxs x = .null := by
  induction ctxs with
  | nil => rfl
  | cons ctx rest ih =>
    rw [lookupVar, h ctx (List.mem_cons_self _ _)]
    exact ih (fun c hc => h c (List.mem_cons_of_mem _ hc))

/-- Scanning a quoted literal consumes exactly the content up to the first
matching quote, keeping every content character (including the other quote
character and operator characters) verbatim. -/
theorem scanQuoted_literal (q : Char) (s rest acc : List Char) (h : q ∉ s) :
    scanQuoted q acc (s ++ q :: rest) = some (String.mk (acc.reverse ++ s), rest) := by
  induction s generalizing acc with
  | nil => simp [scanQuoted]
  | cons c cs ih =>
    have hc : ¬(c = q) := fun e => h (by simp [e])
    rw [List.cons_append, scanQuoted, if_neg hc,
      ih (c :: acc) (fun hm => h (List.mem_cons_of_mem _ hm))]
    simp

/-! ## Claim theorems -/

/-- C1: literal arithmetic respects operator precedence and parenthesised
grouping: `2 + 3 * 4` evaluates to the number 14 and `(2 + 3) * 4` to the
number 20. -/
theorem claim1_precedence_and_grouping :
    eval "2 + 3 * 4" = .ok (.int 14) ∧ eval "(2 + 3) * 4" = .ok (.int 20) :=
  ⟨rfl, rfl⟩

/-- C2: each listed malformed input is rejected with its specific error kind,
and no result value is produced. -/
theorem claim2_malformed_inputs :
    eval "+ + 5" = .error .StartWithNonValueOperator
    ∧ eval "5 + + 5" = .error .DuplicateOperatorNode
    ∧ eval "2 + 6 5" = .error .DuplicateValueNode
    ∧ eval "(2+3)) * 5" = .error .UnpairedBrackets
    ∧ eval ", 2 + 5" = .error .CommaNotWithFunction
    ∧ eval "5 + ()" = .error .BracketNotWithFunction :=
  ⟨rfl, rfl, rfl, rfl, rfl, rfl⟩

/-- C3: a range with numeric bounds produces the half-open integer sequence
from the lower bound up to but excluding the upper bound (`0..5` evaluates to
`[0,1,2,3,4]`, `min(0..5)` to `0`), a non-numeric bound fails with
`ExpectedNumber`, and a chained range such as `1..2..3` fails with
`InvalidRange`. -/
theorem claim3_range_semantics :
    (∀ (s : String) (p q : List Char) (a b : Int),
        parseIntOpt p = some a → parseIntOpt q = some b →
        evalRangeParts s [p, q] = .ok (.arr ((rangeList a b).map Value.int)))
    ∧ (∀ a b k : Int, k ∈ rangeList a b ↔ a ≤ k ∧ k < b)
    ∧ (∀ (s : String) (p q : List Char),
        parseIntOpt p = none ∨ parseIntOpt q = none →
        evalRangeParts s [p, q] = .error .ExpectedNumber)
    ∧ (∀ (s : String) (parts : List (List Char)), parts.length ≠ 2 →
        evalRangeParts s parts = .error (.InvalidRange s))
    ∧ eval "0..5" = .ok (.arr [.int 0, .int 1, .int 2, .int 3, .int 4])
    ∧ eval "min(0..5)" = .ok (.int 0)
    ∧ eval "1..2..3" = .error (.InvalidRange "1..2..3") := by
  refine ⟨?_, ?_, ?_, ?_, rfl, rfl, rfl⟩
  · intro s p q a b hp hq
    simp [evalRangeParts, hp, hq]
  · intro a b k
    simp only [rangeList, List.mem_map, List.mem_range, Int.ofNat_eq_coe]
    constructor
    · rintro ⟨j, hj, rfl⟩
      omega
    · rintro ⟨h1, h2⟩
      exact ⟨(k - a).toNat, by omega, by omega⟩
  · intro s p q h
    rcases h with h | h
    · cases hq : parseIntOpt q <;> simp [evalRangeParts, h, hq]
    · cases hp : parseIntOpt p <;> simp [evalRangeParts, h, hp]
  · intro s parts h
    match parts with
    | [] => rfl
    | [_] => rfl
    | [_, _] => exact absurd rfl h
    | _ :: _ :: _ :: _ => rfl

/-- Witness instantiating C3's quantified parts at concrete inputs. -/
theorem claim3_range_semantics_witness :
    evalRangeParts "0..5" [['0'], ['5']] = .ok (.arr ((rangeList 0 5).map Value.int))
    ∧ ((2 : Int) ∈ rangeList 0 5 ↔ (0 : Int) ≤ 2 ∧ (2 : Int) < 5)
    ∧ evalRangeParts "a..5" [['a'], ['5']] = .error .ExpectedNumber
    ∧ evalRangeParts "1..2..3" [['1'], ['2'], ['3']] = .error (.InvalidRange "1..2..3") :=
  ⟨claim3_range_semantics.1 _ ['0'] ['5'] 0 5 rfl rfl,
   claim3_range_semantics.2.1 0 5 2,
   claim3_range_semantics.2.2.1 _ ['a'] ['5'] (Or.inl rfl),
   claim3_range_semantics.2.2.2.1 _ _ (by simp)⟩

/-- C4: an identifier bound in no scope of the scope stack compared `!= 0`
evaluates to true and compared `> 0` evaluates to false, both at the compiled
evaluator level for every scope stack and through the full pipeline for the
unbound identifier `hos`. -/
theorem claim4_unset_identifier :
    (∀ (ctxs : Contexts) (x : String), (∀ ctx ∈ ctxs, lookupKey x ctx = none) →
      evalNode ctxs (.binop "!=" (.var x) (.lit (.int 0))) = .ok (.bool true)
      ∧ evalNode ctxs (.binop ">" (.var x) (.lit (.int 0))) = .ok (.bool false))
    ∧ eval "hos != 0" = .ok (.bool true)
    ∧ eval "hos > 0" = .ok (.bool false) := by
  refine ⟨?_, rfl, rfl⟩
  intro ctxs x h
  have hl := lookupVar_eq_null h
  constructor
  · have e1 : evalNode ctxs (.binop "!=" (.var x) (.lit (.int 0)))
        = applyBin "!=" (lookupVar ctxs x) (.int 0) := rfl
    rw [e1, hl]
    rfl
  · have e2 : evalNode ctxs (.binop ">" (.var x) (.lit (.int 0)))
        = applyBin ">" (lookupVar ctxs x) (.int 0) := rfl
    rw [e2, hl]
    rfl

/-- Witness instantiating C4 on the empty scope stack and identifier `hos`. -/
theorem claim4_unset_identifier_witness :
    evalNode [] (.binop "!=" (.var "hos") (.lit (.int 0))) = .ok (.bool true)
    ∧ evalNode [] (.binop ">" (.var "hos") (.lit (.int 0))) = .ok (.bool false) :=
  ⟨(claim4_unset_identifier.1 [] "hos" (by simp)).1,
   (claim4_unset_identifier.1 [] "hos" (by simp)).2⟩

/-- C5 counterexample: the claim counts null among the non-numeric shapes
that make an ordering comparison fail with `ExpectedNumber`, but evaluating
`hos > 0` (with `hos` unbound, hence null) succeeds with false — exactly the
behavior the in-source test `test_null_and_number` requires. -/
theorem claim5_counterexample_null_ordering :
    eval "hos > 0" = .ok (.bool false)
    ∧ eval "hos > 0" ≠ .error .ExpectedNumber := by
  refine ⟨rfl, fun h => ?_⟩
  rw [show eval "hos > 0" = .ok (.bool false) from rfl] at h
  exact Except.noConfusion h

/-- C5 (amended): ordering comparisons succeed only on numeric operands
except that a null operand yields false; a non-numeric non-null operand
(string, boolean, array, object) fails with `ExpectedNumber`, while equality
and inequality succeed for operands of every shape, mismatched shapes
comparing unequal. -/
theorem claim5_comparison_typing :
    (∀ (f : Rat → Rat → Bool) (a b : Value), (isNull a || isNull b) = true →
        cmpValues f a b = .ok (.bool false))
    ∧ (∀ (f : Rat → Rat → Bool) (a b : Value),
        isNull a = false → isNull b = false →
        toRatOpt a = none ∨ toRatOpt b = none →
        cmpValues f a b = .error .ExpectedNumber)
    ∧ (∀ a b : Value, applyBin "==" a b = .ok (.bool (Value.beq a b))
        ∧ applyBin "!=" a b = .ok (.bool (!Value.beq a b)))
    ∧ (∀ a b : Value, shapeTag a ≠ shapeTag b → Value.beq a b = false) := by
  refine ⟨?_, ?_, fun a b => ⟨rfl, rfl⟩, ?_⟩
  · intro f a b h
    simp [cmpValues, h]
  · intro f a b ha hb h
    rcases h with h | h
    · cases hb2 : toRatOpt b <;> simp [cmpValues, ha, hb, h, hb2]
    · cases ha2 : toRatOpt a <;> simp [cmpValues, ha, hb, h, ha2]
  · intro a b h
    cases a <;> cases b <;> first | rfl | simp [shapeTag] at h

/-- Witness instantiating C5's amended statement at concrete values. -/
theorem claim5_comparison_typing_witness :
    cmpValues ratLt .null (.int 0) = .ok (.bool false)
    ∧ cmpValues ratLt (.str "a") (.int 0) = .error .ExpectedNumber
    ∧ Value.beq (.int 1) (.str "a") = false :=
  ⟨claim5_comparison_typing.1 ratLt .null (.int 0) rfl,
   claim5_comparison_typing.2.1 ratLt (.str "a") (.int 0) rfl rfl (Or.inl rfl),
   claim5_comparison_typing.2.2.2 (.int 1) (.str "a") (by decide)⟩

/-- C6: division of numeric operands always produces a float, even for two
integer operands, while remainder keeps two integer operands integer and
promotes to a float when either operand is a float: `(((5) / 5))` is the
float 1.0, `2 % 2` the integer 0, `5.5 % 23` the float 5.5, `23 % 5.5` the
float 1.0. -/
theorem claim6_division_and_remainder :
    (∀ a b : Int, divValues (.int a) (.int b)
        = .ok (.float (ratDiv (mkRat a 1) (mkRat b 1))))
    ∧ (∀ a b : Int, remValues (.int a) (.int b) = .ok (.int (a.tmod b)))
    ∧ (∀ (q r : Rat) (n : Int),
        remValues (.float q) (.int n) = .ok (.float (ratFmod q (mkRat n 1)))
        ∧ remValues (.int n) (.float q) = .ok (.float (ratFmod (mkRat n 1) q))
        ∧ remValues (.float q) (.float r) = .ok (.float (ratFmod q r)))
    ∧ eval "(((5) / 5))" = .ok (.float 1)
    ∧ eval "2 % 2" = .ok (.int 0)
    ∧ eval "5.5 % 23" = .ok (.float (mkRat 11 2))
    ∧ eval "23 % 5.5" = .ok (.float 1) :=
  ⟨fun _ _ => rfl, fun _ _ => rfl, fun _ _ _ => ⟨rfl, rfl, rfl⟩, rfl, rfl, rfl, rfl⟩

/-- C7: `&&` and `||` accept only boolean operands — a non-boolean operand
fails with `ExpectedBoolean` — and they short-circuit: a false left operand
of `&&` (respectively a true left operand of `||`) decides the result without
invoking the right operand, so a right operand that would itself fail does
not make the expression fail. -/
theorem claim7_logical_operators :
    (∀ (ctxs : Contexts) (l r : Node), evalNode ctxs l = .ok (.bool false) →
        evalNode ctxs (.binop "&&" l r) = .ok (.bool false))
    ∧ (∀ (ctxs : Contexts) (l r : Node), evalNode ctxs l = .ok (.bool true) →
        evalNode ctxs (.binop "||" l r) = .ok (.bool true))
    ∧ (∀ v : Value, (∀ b, v ≠ .bool b) → asBool v = .error (.ExpectedBoolean v))
    ∧ eval "1 && true" = .error (.ExpectedBoolean (.int 1))
    ∧ eval "(1 == 2) && (1 && true)" = .ok (.bool false)
    ∧ eval "(1 == 1) || (1 && true)" = .ok (.bool true) := by
  refine ⟨?_, ?_, ?_, rfl, rfl, rfl⟩
  · intro ctxs l r h
    have e : evalNode ctxs (.binop "&&" l r)
        = (evalNode ctxs l >>= fun lv => asBool lv >>= fun lb =>
            if lb then
              evalNode ctxs r >>= fun rv => asBool rv >>= fun rb => pure (Value.bool rb)
            else pure (Value.bool false)) := rfl
    rw [e, h]
    rfl
  · intro ctxs l r h
    have e : evalNode ctxs (.binop "||" l r)
        = (evalNode ctxs l >>= fun lv => asBool lv >>= fun lb =>
            if lb then pure (Value.bool true)
            else
              evalNode ctxs r >>= fun rv => asBool rv >>= fun rb => pure (Value.bool rb)) := rfl
    rw [e, h]
    rfl
  · intro v h
    cases v with
    | bool b => exact absurd rfl (h b)
    | null => rfl
    | int n => rfl
    | float q => rfl
    | str s => rfl
    | arr xs => rfl
    | obj kvs => rfl

/-- Witness instantiating C7 with a right operand that would fail with
`ExpectedBoolean` were it evaluated. -/
theorem claim7_logical_operators_witness :
    evalNode [] (.binop "&&" (.lit (.bool false)) (.lit (.int 1))) = .ok (.bool false)
    ∧ evalNode [] (.binop "||" (.lit (.bool true)) (.lit (.int 1))) = .ok (.bool true)
    ∧ asBool (.int 1) = .error (.ExpectedBoolean (.int 1)) :=
  ⟨claim7_logical_operators.1 [] _ _ rfl,
   claim7_logical_operators.2.1 [] _ _ rfl,
   claim7_logical_operators.2.2.1 (.int 1) (fun _ h => Value.noConfusion h)⟩

/-- C8: adding two string values concatenates them, and the scanner treats
every character inside a single- or double-quoted literal — operator
characters and the other quote character included — as literal content, so
`"Hello"+", world!"` concatenates, as do mixed-quote literals such as
`" '''' " + " '''' "` and `' """" ' + ' """" '`. -/
theorem claim8_strings :
    (∀ a b : String, addValues (.str a) (.str b) = .ok (.str (a ++ b)))
    ∧ (∀ (q : Char) (s rest : List Char), q ∉ s →
        scanQuoted q [] (s ++ q :: rest) = some (String.mk s, rest))
    ∧ eval "\"Hello\"+\", world!\"" = .ok (.str "Hello, world!")
    ∧ eval (String.mk ([dq, ' ', sq, sq, sq, sq, ' ', dq, ' ', '+', ' ',
          dq, ' ', sq, sq, sq, sq, ' ', dq]))
      = .ok (.str (String.mk [' ', sq, sq, sq, sq, ' ', ' ', sq, sq, sq, sq, ' ']))
    ∧ eval (String.mk ([sq, ' ', dq, dq, dq, dq, ' ', sq, ' ', '+', ' ',
          sq, ' ', dq, dq, dq, dq, ' ', sq]))
      = .ok (.str (String.mk [' ', dq, dq, dq, dq, ' ', ' ', dq, dq, dq, dq, ' '])) := by
  refine ⟨fun a b => rfl, ?_, rfl, rfl, rfl⟩
  intro q s rest h
  exact scanQuoted_literal q s rest [] h

/-- Witness instantiating C8's scanner statement on content holding the other
quote character and operator characters. -/
theorem claim8_strings_witness :
    scanQuoted dq [] (([sq, '+', '>'] : List Char) ++ dq :: []) =
      some (String.mk [sq, '+', '>'], []) :=
  claim8_strings.2.1 dq [sq, '+', '>'] [] (by decide)

/-- C9: property or index access on an absent path never fails — a null base,
a missing object key, or an out-of-range array index yields null — while a
base that is neither array, object, nor null fails with `ExpectedArray` or
`ExpectedObject`; in particular `untaian[2-2].foo[2-2]` with no variables
bound evaluates to null. -/
theorem claim9_absent_path :
    (∀ k : Value, accessValue .null k = .ok .null)
    ∧ (∀ (kvs : List (String × Value)) (k : String), lookupKey k kvs = none →
        accessValue (.obj kvs) (.str k) = .ok .null)
    ∧ (∀ (xs : List Value) (i : Int), xs.length ≤ i.toNat ∨ i < 0 →
        accessValue (.arr xs) (.int i) = .ok .null)
    ∧ (∀ v k : Value, isNull v = false →
        (∀ xs, v ≠ .arr xs) → (∀ kvs, v ≠ .obj kvs) →
        accessValue v k = .error .ExpectedArray ∨
          accessValue v k = .error .ExpectedObject)
    ∧ eval "untaian[2-2].foo[2-2]" = .ok .null := by
  refine ⟨fun k => by cases k <;> rfl, ?_, ?_, ?_, rfl⟩
  · intro kvs k h
    simp [accessValue, h]
  · intro xs i h
    rcases h with h | h
    · by_cases hneg : i < 0
      · simp [accessValue, hneg]
      · simp [accessValue, hneg, List.getElem?_eq_none h]
    · simp [accessValue, h]
  · intro v k h1 h2 h3
    cases v with
    | null => simp [isNull] at h1
    | arr xs => exact absurd rfl (h2 xs)
    | obj kvs => exact absurd rfl (h3 kvs)
    | bool b => cases k <;> first | exact Or.inl rfl | exact Or.inr rfl
    | int n => cases k <;> first | exact Or.inl rfl | exact Or.inr rfl
    | float q => cases k <;> first | exact Or.inl rfl | exact Or.inr rfl
    | str s => cases k <;> first | exact Or.inl rfl | exact Or.inr rfl

/-- Witness instantiating C9 at a missing key, an out-of-range index, and a
number base. -/
theorem claim9_absent_path_witness :
    accessValue (.obj [("bar", .int 1)]) (.str "foo") = .ok .null
    ∧ accessValue (.arr [.int 7]) (.int 5) = .ok .null
    ∧ (accessValue (.int 3) (.int 0) = .error .ExpectedArray
        ∨ accessValue (.int 3) (.int 0) = .error .ExpectedObject) :=
  ⟨claim9_absent_path.2.1 [("bar", .int 1)] "foo" rfl,
   claim9_absent_path.2.2.1 [.int 7] 5 (Or.inl (by decide)),
   claim9_absent_path.2.2.2.1 (.int 3) (.int 0) rfl
     (fun _ h => Value.noConfusion h) (fun _ h => Value.noConfusion h)⟩

/-- C10: `to_value` unwraps the serde conversion result — a successful
serialization returns the converted value, and a failed one panics (modelled
as `none`) rather than returning a typed `Error`, so the panic branch is
unreachable exactly when the conversion succeeds. -/
theorem claim10_to_value_unwrap :
    (∀ v : Value, to_value (.ok v) = some v)
    ∧ (∀ e : String, to_value (.error e) = none)
    ∧ (∀ r : Except String Value, to_value r = none ↔ ∃ e, r = .error e) := by
  refine ⟨fun _ => rfl, fun _ => rfl, ?_⟩
  intro r
  cases r with
  | ok v => simp [to_value]
  | error e => simp [to_value]

end Baik
